import Mathlib

/-!
# Verification of the realtime-pals presence & conversation core

Shallow embedding of the chat application's data layer and client
operations, translated from:

* `supabase/migrations/20251024193900_*.sql` — table shapes, row-level
  security, the `create_friendship` trigger;
* `src/components/chat/Sidebar.tsx` — `sendFriendRequest`,
  `acceptRequest`, `rejectRequest`;
* `src/components/chat/ChatArea.tsx` — `loadMessages`, the live
  subscription handler, `sendMessage`;
* the chat page (`Chat.tsx`) — the presence heartbeat `updateStatus`
  and its teardown write.

Tables are lists of rows in insertion order; store-generated values
(`gen_random_uuid()` ids, `now()` timestamps) are explicit parameters.
Each client operation is one Lean function on the store, so a single
application of a function is the atomic unit the store provides for it.
-/

namespace RealtimePals

abbrev UserId := Nat
abbrev ReqId := Nat
abbrev MsgId := Nat
abbrev Time := Nat

/-- `friend_requests.status`: `CHECK (status IN ('pending','accepted','rejected'))`. -/
inductive ReqStatus where
  | pending
  | accepted
  | rejected
deriving DecidableEq, Repr

/-- A `friend_requests` row (timestamps omitted; no claim mentions them). -/
structure FriendRequest where
  id : ReqId
  sender_id : UserId
  receiver_id : UserId
  status : ReqStatus
deriving DecidableEq, Repr

/-- A `friendships` row: directed edge, `UNIQUE(user_id, friend_id)`.
The surrogate `id` and `created_at` columns play no role in any claim
and are omitted, so row equality is edge equality, matching the
uniqueness constraint. -/
structure Friendship where
  user_id : UserId
  friend_id : UserId
deriving DecidableEq, Repr

/-- A `messages` row. `read BOOLEAN DEFAULT false`. -/
structure Message where
  id : MsgId
  sender_id : UserId
  receiver_id : UserId
  content : String
  read : Bool
  created_at : Time
deriving DecidableEq, Repr

/-- A `profiles` row (presence fields; columns not used by the claims
are omitted). `status` is the literal text the client writes. -/
structure Profile where
  id : UserId
  email : String
  status : String
  last_seen : Time
deriving DecidableEq, Repr

/-- The datastore: the four tables, each a list of rows in insertion
order. -/
structure DB where
  profiles : List Profile
  friend_requests : List FriendRequest
  friendships : List Friendship
  messages : List Message
deriving DecidableEq, Repr

/-! ## Friend Request State Machine (`Sidebar.tsx` + migration) -/

/-- Outcomes `sendFriendRequest` distinguishes: `.single()` returning no
row ("User not found"), the self check ("You cannot add yourself"), and
insert error code 23505 from `UNIQUE(sender_id, receiver_id)`
("Friend request already sent"). -/
inductive SendRequestError where
  | NotFound
  | SelfRequest
  | DuplicateRequest
deriving DecidableEq, Repr

/-- `supabase.from('profiles').select('id').eq('email', searchEmail).single()`:
yields the id when exactly one profile matches the email, otherwise the
`.single()` call errors and the handler sees no data. -/
def resolveEmail (searchEmail : String) (db : DB) : Option UserId :=
  match db.profiles.filter (fun p => p.email = searchEmail) with
  | [p] => some p.id
  | _ => none

/-- Does a `friend_requests` row for the ordered pair already exist
(any status)?  This is what `UNIQUE(sender_id, receiver_id)` rejects. -/
def requestPairExists (s r : UserId) (db : DB) : Bool :=
  db.friend_requests.any (fun q => q.sender_id = s ∧ q.receiver_id = r)

/-- `sendFriendRequest` from `Sidebar.tsx`: resolve the email, refuse a
self request, then `insert({sender_id, receiver_id, status:'pending'})`;
the unique constraint turns an existing ordered pair into error 23505.
`freshId` stands for the store's `gen_random_uuid()`. -/
def sendFriendRequest (currentUserId : UserId) (searchEmail : String)
    (freshId : ReqId) (db : DB) : Except SendRequestError DB :=
  match resolveEmail searchEmail db with
  | none => .error .NotFound
  | some rid =>
    if rid = currentUserId then .error .SelfRequest
    else if requestPairExists currentUserId rid db then .error .DuplicateRequest
    else .ok { db with
      friend_requests := db.friend_requests ++
        [⟨freshId, currentUserId, rid, .pending⟩] }

/-- `INSERT INTO friendships ... ON CONFLICT DO NOTHING` under
`UNIQUE(user_id, friend_id)`: append the edge unless it is present. -/
def insertFriendshipIdem (e : Friendship) (fs : List Friendship) : List Friendship :=
  if e ∈ fs then fs else fs ++ [e]

/-- Trigger function `create_friendship` combined with the trigger's
`WHEN (NEW.status = 'accepted' AND OLD.status = 'pending')` guard:
on that transition insert both directed edges idempotently. -/
def create_friendship (oldR newR : FriendRequest) (fs : List Friendship) :
    List Friendship :=
  if newR.status = .accepted ∧ oldR.status = .pending then
    insertFriendshipIdem ⟨newR.receiver_id, newR.sender_id⟩
      (insertFriendshipIdem ⟨newR.sender_id, newR.receiver_id⟩ fs)
  else fs

/-- One `UPDATE friend_requests SET status = newStatus WHERE id = reqId`
issued by `actor`, under the row-level security policy
`USING (auth.uid() = receiver_id)`, with the `AFTER UPDATE` trigger
firing per updated row in the same transaction.  Rows the policy
filters out are untouched and no error is reported. -/
def applyRequestUpdate (actor : UserId) (reqId : ReqId) (newStatus : ReqStatus) :
    List FriendRequest → List Friendship → List FriendRequest × List Friendship
  | [], fs => ([], fs)
  | r :: rs, fs =>
    if r.id = reqId ∧ r.receiver_id = actor then
      let r' : FriendRequest := { r with status := newStatus }
      let rest := applyRequestUpdate actor reqId newStatus rs (create_friendship r r' fs)
      (r' :: rest.1, rest.2)
    else
      let rest := applyRequestUpdate actor reqId newStatus rs fs
      (r :: rest.1, rest.2)

/-- The whole-store effect of the status update plus trigger: one
atomic unit, exactly as the store executes trigger and write in one
transaction. -/
def updateRequestStatus (actor : UserId) (reqId : ReqId) (newStatus : ReqStatus)
    (db : DB) : DB :=
  let res := applyRequestUpdate actor reqId newStatus db.friend_requests db.friendships
  { db with friend_requests := res.1, friendships := res.2 }

/-- `acceptRequest` from `Sidebar.tsx`:
`update({ status: 'accepted' }).eq('id', requestId)`. -/
def acceptRequest (actor : UserId) (requestId : ReqId) (db : DB) : DB :=
  updateRequestStatus actor requestId .accepted db

/-- `rejectRequest` from `Sidebar.tsx`:
`update({ status: 'rejected' }).eq('id', requestId)`. -/
def rejectRequest (actor : UserId) (requestId : ReqId) (db : DB) : DB :=
  updateRequestStatus actor requestId .rejected db

/-! ## Conversation Synchronizer (`ChatArea.tsx`) -/

/-- The `.or(and(sender_id.eq.cur,receiver_id.eq.sel),and(sender_id.eq.sel,receiver_id.eq.cur))`
predicate used by `loadMessages`' query. -/
def pairFilter (currentUserId selectedId : UserId) (m : Message) : Bool :=
  (m.sender_id = currentUserId ∧ m.receiver_id = selectedId) ∨
    (m.sender_id = selectedId ∧ m.receiver_id = currentUserId)

/-- The realtime subscription's `filter:` expression on `INSERT` events
(`ChatArea.tsx`), syntactically the same disjunction as the load query:
`or(and(sender_id.eq.cur,receiver_id.eq.sel),and(sender_id.eq.sel,receiver_id.eq.cur))`. -/
def channelFilter (currentUserId selectedId : UserId) (m : Message) : Bool :=
  (m.sender_id = currentUserId ∧ m.receiver_id = selectedId) ∨
    (m.sender_id = selectedId ∧ m.receiver_id = currentUserId)

/-- `created_at` comparison behind `.order('created_at', { ascending: true })`. -/
def createdLe (a b : Message) : Bool := a.created_at ≤ b.created_at

/-- The select of `loadMessages`: filter to the pair, order ascending by
`created_at` (a stable sort; the store breaks ties arbitrarily, the
client library's sort is stable — either satisfies the spec's
"ascending by created timestamp"). -/
def loadQuery (currentUserId selectedId : UserId) (db : DB) : List Message :=
  (db.messages.filter (pairFilter currentUserId selectedId)).mergeSort createdLe

/-- `update({ read: true }).in('id', ids)` on `messages`, as issued by
the client: set `read` on every row whose id is listed. -/
def markReadIn (ids : List MsgId) (msgs : List Message) : List Message :=
  msgs.map (fun m => if m.id ∈ ids then { m with read := true } else m)

/-- The ids `loadMessages` collects:
`data.filter(m => m.receiver_id === currentUserId && !m.read).map(m => m.id)`. -/
def unreadIdsOf (currentUserId : UserId) (data : List Message) : List MsgId :=
  (data.filter (fun m => m.receiver_id = currentUserId ∧ m.read = false)).map (·.id)

/-- `loadMessages` from `ChatArea.tsx`: run the query, then (when any
inbound row is unread) mark those rows read in one batched update.
Returns the fetched sequence and the store after the batched write. -/
def loadMessages (currentUserId selectedId : UserId) (db : DB) :
    List Message × DB :=
  let data := loadQuery currentUserId selectedId db
  let unreadIds := unreadIdsOf currentUserId data
  if unreadIds.length > 0 then
    (data, { db with messages := markReadIn unreadIds db.messages })
  else
    (data, db)

/-- The subscription handler's local-state update
`setMessages(prev => [...prev, payload.new])`: an unconditional append. -/
def handlerAppend (prev : List Message) (payload : Message) : List Message :=
  prev ++ [payload]

/-- The subscription handler's store write: when
`payload.new.receiver_id === currentUserId`, issue
`update({ read: true }).eq('id', payload.new.id)`. -/
def handlerMarkRead (currentUserId : UserId) (payload : Message) (db : DB) : DB :=
  if payload.receiver_id = currentUserId then
    let msgs := db.messages.map
      (fun m => if m.id = payload.id then { m with read := true } else m)
    { db with messages := msgs }
  else db

/-- Characters removed by JavaScript `String.prototype.trim()` (the
common whitespace code points; enough for the model since only
"blank after trimming" and end-trimming matter to the claims). -/
def isJsWhitespace (c : Char) : Bool :=
  c = ' ' ∨ c = '\t' ∨ c = '\n' ∨ c = '\r' ∨ c = '\x0b' ∨ c = '\x0c'

/-- JavaScript `s.trim()`: drop whitespace from both ends. Modelled
over the character list because the claims evaluate it on concrete
inputs. -/
def trim (s : String) : String :=
  ⟨((s.data.dropWhile isJsWhitespace).reverse.dropWhile isJsWhitespace).reverse⟩

/-- `sendMessage` from `ChatArea.tsx`: the guard
`if (!newMessage.trim() || ...) return;` refuses blank content without
inserting; otherwise
`insert({ sender_id, receiver_id, content: newMessage.trim() })`
creates one row with the store defaults `read = false`,
`id = gen_random_uuid()` (`freshId`), `created_at = now()` (`now`).
Returns the updated store and the new row's id (`none` when refused). -/
def sendMessage (senderId receiverId : UserId) (content : String)
    (freshId : MsgId) (now : Time) (db : DB) : DB × Option MsgId :=
  if trim content = "" then (db, none)
  else
    ({ db with messages := db.messages ++
        [⟨freshId, senderId, receiverId, trim content, false, now⟩] },
     some freshId)

/-! ## Presence Tracker (chat page) -/

/-- Pointwise form of `update({...}).eq('id', uid)` on `profiles`: the
row with the session's own id gets the new presence fields, every
other row is untouched. -/
def presenceWrite (uid : UserId) (status : String) (now : Time) (p : Profile) : Profile :=
  if p.id = uid then { p with status := status, last_seen := now } else p

/-- The chat page's `updateStatus`:
`update({ status: 'online', last_seen: now }).eq('id', user.id)`. -/
def updateStatus (uid : UserId) (now : Time) (db : DB) : DB :=
  { db with profiles := db.profiles.map (presenceWrite uid "online" now) }

/-- The teardown write on unmount:
`update({ status: 'offline', last_seen: now }).eq('id', user.id)`. -/
def teardownStatus (uid : UserId) (now : Time) (db : DB) : DB :=
  { db with profiles := db.profiles.map (presenceWrite uid "offline" now) }

/-- `setInterval(updateStatus, 30000)` together with the immediate
initial call: within a session lasting through time `t`, heartbeat
writes happen exactly at times `0, 30, 60, …` up to `t`. -/
def heartbeatTicks (t : Time) : List Time :=
  (List.range (t / 30 + 1)).map (fun k => 30 * k)

/-- Run the heartbeat writes of a session in order. -/
def runBeats (uid : UserId) (ts : List Time) (db : DB) : DB :=
  ts.foldl (fun d t => updateStatus uid t d) db

/-- A whole session for account `uid` tearing down at time `t`: the
periodic online writes, then the final best-effort offline write. -/
def sessionRun (uid : UserId) (t : Time) (db : DB) : DB :=
  teardownStatus uid t (runBeats uid (heartbeatTicks t) db)

/-! ## Concrete stores used to evaluate the theorems -/

/-- A pending request from user 1 to user 2. -/
def pendingReq : FriendRequest := ⟨0, 1, 2, .pending⟩

/-- Store holding only `pendingReq`. -/
def dbAccept : DB := ⟨[], [pendingReq], [], []⟩

/-- Store with two registered profiles and no requests. -/
def dbSendTwice : DB :=
  ⟨[⟨1, "alice@x.com", "offline", 0⟩, ⟨2, "bob@x.com", "offline", 0⟩], [], [], []⟩

/-- A message of the 1–2 conversation created later. -/
def msgLate : Message := ⟨5, 1, 2, "hi", false, 10⟩

/-- A message of the 1–2 conversation created earlier, unread inbound to 1. -/
def msgEarly : Message := ⟨6, 2, 1, "hello", false, 3⟩

/-- A message of an unrelated conversation (3 → 1). -/
def msgOther : Message := ⟨7, 3, 1, "noise", false, 1⟩

/-- Store holding the three messages above, out of order. -/
def dbLoad : DB := ⟨[], [], [], [msgLate, msgEarly, msgOther]⟩

/-- A request from 1 to 2 already rejected by 2. -/
def rejectedReq : FriendRequest := ⟨0, 1, 2, .rejected⟩

/-- Store holding only `rejectedReq`. -/
def dbRejected : DB := ⟨[], [rejectedReq], [], []⟩

/-- A message as delivered by the live stream. -/
def echoMsg : Message := ⟨0, 1, 2, "hi", false, 0⟩

/-- Store with one unread message inbound to user 1. -/
def dbReadFlag : DB := ⟨[], [], [], [⟨5, 2, 1, "hello", false, 1⟩]⟩

/-- Empty store for exercising `sendMessage`. -/
def dbEmptySend : DB := ⟨[], [], [], []⟩

/-- Store with two profiles for the presence session. -/
def dbPresence : DB :=
  ⟨[⟨1, "alice@x.com", "offline", 0⟩, ⟨2, "bob@x.com", "offline", 0⟩], [], [], []⟩

/-- Empty store for exercising content trimming. -/
def dbTrimSend : DB := ⟨[], [], [], []⟩

/-! ## Helper lemmas: the friend-request update -/

theorem applyRequestUpdate_skip (actor : UserId) (reqId : ReqId) (st : ReqStatus)
    (l : List FriendRequest) (fs : List Friendship)
    (h : ∀ r ∈ l, ¬(r.id = reqId ∧ r.receiver_id = actor)) :
    applyRequestUpdate actor reqId st l fs = (l, fs) := by
  induction l with
  | nil => rfl
  | cons r rs ih =>
    have hr : ¬(r.id = reqId ∧ r.receiver_id = actor) := h r (List.mem_cons_self r rs)
    have ht := ih (fun q hq => h q (List.mem_cons_of_mem r hq))
    simp only [applyRequestUpdate, if_neg hr, ht]

theorem applyRequestUpdate_append (actor : UserId) (reqId : ReqId) (st : ReqStatus)
    (l₁ l₂ : List FriendRequest) (fs : List Friendship) :
    applyRequestUpdate actor reqId st (l₁ ++ l₂) fs =
      ((applyRequestUpdate actor reqId st l₁ fs).1 ++
        (applyRequestUpdate actor reqId st l₂
          (applyRequestUpdate actor reqId st l₁ fs).2).1,
       (applyRequestUpdate actor reqId st l₂
          (applyRequestUpdate actor reqId st l₁ fs).2).2) := by
  induction l₁ generalizing fs with
  | nil => simp [applyRequestUpdate]
  | cons r rs ih =>
    by_cases hr : r.id = reqId ∧ r.receiver_id = actor
    · simp [applyRequestUpdate, hr, ih]
    · simp [applyRequestUpdate, hr, ih]

theorem updateRequestStatus_decomp (db : DB) (req : FriendRequest) (st : ReqStatus)
    (l₁ l₂ : List FriendRequest)
    (hsplit : db.friend_requests = l₁ ++ req :: l₂)
    (h₁ : ∀ r ∈ l₁, r.id ≠ req.id) (h₂ : ∀ r ∈ l₂, r.id ≠ req.id) :
    updateRequestStatus req.receiver_id req.id st db =
      { db with
        friend_requests := l₁ ++ { req with status := st } :: l₂,
        friendships := create_friendship req { req with status := st } db.friendships } := by
  have hskip₁ : applyRequestUpdate req.receiver_id req.id st l₁ db.friendships =
      (l₁, db.friendships) :=
    applyRequestUpdate_skip _ _ _ _ _ (fun r hr hc => h₁ r hr hc.1)
  have hskip₂ : ∀ fs, applyRequestUpdate req.receiver_id req.id st l₂ fs = (l₂, fs) :=
    fun fs => applyRequestUpdate_skip _ _ _ _ _ (fun r hr hc => h₂ r hr hc.1)
  unfold updateRequestStatus
  rw [hsplit, applyRequestUpdate_append, hskip₁]
  simp [applyRequestUpdate, hskip₂]

theorem mem_nodup_decomp (l : List FriendRequest) (req : FriendRequest)
    (hmem : req ∈ l) (hnd : (l.map (fun r => r.id)).Nodup) :
    ∃ l₁ l₂, l = l₁ ++ req :: l₂ ∧
      (∀ r ∈ l₁, r.id ≠ req.id) ∧ (∀ r ∈ l₂, r.id ≠ req.id) := by
  obtain ⟨l₁, l₂, rfl⟩ := List.append_of_mem hmem
  rw [List.map_append, List.map_cons, List.nodup_append] at hnd
  obtain ⟨-, hmid, hdisj⟩ := hnd
  refine ⟨l₁, l₂, rfl, ?_, ?_⟩
  · intro r hr hid
    exact hdisj (List.mem_map_of_mem _ hr)
      (by rw [hid]; exact List.mem_cons_self _ _)
  · intro r hr hid
    exact (List.nodup_cons.1 hmid).1 (hid ▸ List.mem_map_of_mem _ hr)

/-! ## Helper lemmas: idempotent friendship insertion -/

theorem mem_insertFriendshipIdem (a e : Friendship) (fs : List Friendship) :
    a ∈ insertFriendshipIdem e fs ↔ a ∈ fs ∨ a = e := by
  unfold insertFriendshipIdem
  by_cases h : e ∈ fs
  · rw [if_pos h]
    exact ⟨Or.inl, fun hc => hc.elim id (fun ha => ha ▸ h)⟩
  · rw [if_neg h]
    simp

theorem count_insertFriendshipIdem_self (e : Friendship) (fs : List Friendship) :
    (insertFriendshipIdem e fs).count e = max (fs.count e) 1 := by
  unfold insertFriendshipIdem
  by_cases h : e ∈ fs
  · rw [if_pos h]
    have hpos : 0 < fs.count e := List.count_pos_iff.mpr h
    omega
  · rw [if_neg h, List.count_append]
    have hz : fs.count e = 0 := List.count_eq_zero.mpr h
    simp [hz]

theorem count_insertFriendshipIdem_other (a e : Friendship) (fs : List Friendship)
    (h : a ≠ e) :
    (insertFriendshipIdem e fs).count a = fs.count a := by
  unfold insertFriendshipIdem
  by_cases he : e ∈ fs
  · rw [if_pos he]
  · rw [if_neg he, List.count_append]
    have hz : List.count a [e] = 0 := List.count_eq_zero.mpr (by simp [h])
    omega

/-! ## Claims -/

/-- **C1**: accepting a pending request between A and B (by its
receiver, the only actor row-level security lets through) sets the
request's status to `accepted` and creates exactly the two Friendship
edges (A,B) and (B,A); edge creation is idempotent (a pre-existing edge
is not duplicated and raises no error, by `ON CONFLICT DO NOTHING`).
The status write and both edge inserts are one application of
`acceptRequest`, mirroring the store trigger running inside the same
transaction as the update, so both edges and the new status become
visible in the same post-state. -/
theorem accept_pending_materializes_friendship (db : DB) (req : FriendRequest)
    (hmem : req ∈ db.friend_requests) (hpend : req.status = .pending)
    (hnd : (db.friend_requests.map (fun r => r.id)).Nodup) :
    (∀ r ∈ (acceptRequest req.receiver_id req.id db).friend_requests,
        r.id = req.id → r.status = .accepted) ∧
    (acceptRequest req.receiver_id req.id db).friendships =
      insertFriendshipIdem ⟨req.receiver_id, req.sender_id⟩
        (insertFriendshipIdem ⟨req.sender_id, req.receiver_id⟩ db.friendships) ∧
    Friendship.mk req.sender_id req.receiver_id ∈
      (acceptRequest req.receiver_id req.id db).friendships ∧
    Friendship.mk req.receiver_id req.sender_id ∈
      (acceptRequest req.receiver_id req.id db).friendships ∧
    (∀ e ∈ (acceptRequest req.receiver_id req.id db).friendships,
      e ∈ db.friendships ∨ e = Friendship.mk req.sender_id req.receiver_id ∨
        e = Friendship.mk req.receiver_id req.sender_id) ∧
    (acceptRequest req.receiver_id req.id db).friendships.count
        (Friendship.mk req.sender_id req.receiver_id) =
      max (db.friendships.count (Friendship.mk req.sender_id req.receiver_id)) 1 ∧
    (acceptRequest req.receiver_id req.id db).friendships.count
        (Friendship.mk req.receiver_id req.sender_id) =
      max (db.friendships.count (Friendship.mk req.receiver_id req.sender_id)) 1 := by
  obtain ⟨l₁, l₂, hsplit, h₁, h₂⟩ := mem_nodup_decomp _ _ hmem hnd
  have hup := updateRequestStatus_decomp db req .accepted l₁ l₂ hsplit h₁ h₂
  have haccept : acceptRequest req.receiver_id req.id db =
      { db with
        friend_requests := l₁ ++ { req with status := .accepted } :: l₂,
        friendships := create_friendship req { req with status := .accepted }
          db.friendships } := hup
  have hcf : create_friendship req { req with status := .accepted } db.friendships =
      insertFriendshipIdem ⟨req.receiver_id, req.sender_id⟩
        (insertFriendshipIdem ⟨req.sender_id, req.receiver_id⟩ db.friendships) := by
    unfold create_friendship
    rw [if_pos ⟨rfl, hpend⟩]
  rw [haccept]
  refine ⟨?_, by simpa using hcf, ?_, ?_, ?_, ?_, ?_⟩
  · intro r hr hid
    rcases List.mem_append.1 hr with hl | hl
    · exact absurd hid (h₁ r hl)
    · rcases List.mem_cons.1 hl with rfl | hl
      · rfl
      · exact absurd hid (h₂ r hl)
  · simp [hcf, mem_insertFriendshipIdem]
  · simp [hcf, mem_insertFriendshipIdem]
  · intro e he
    simp only [hcf, mem_insertFriendshipIdem] at he
    tauto
  · simp only [hcf]
    by_cases hab : req.sender_id = req.receiver_id
    · have he : Friendship.mk req.receiver_id req.sender_id =
          Friendship.mk req.sender_id req.receiver_id := by rw [hab]
      rw [he, count_insertFriendshipIdem_self, count_insertFriendshipIdem_self]
      omega
    · rw [count_insertFriendshipIdem_other _ _ _ (by simp [Friendship.mk.injEq]; tauto),
        count_insertFriendshipIdem_self]
  · simp only [hcf]
    by_cases hab : req.sender_id = req.receiver_id
    · have he : Friendship.mk req.receiver_id req.sender_id =
          Friendship.mk req.sender_id req.receiver_id := by rw [hab]
      rw [he, count_insertFriendshipIdem_self, count_insertFriendshipIdem_self]
      omega
    · rw [count_insertFriendshipIdem_self,
        count_insertFriendshipIdem_other _ _ _ (by simp [Friendship.mk.injEq]; tauto)]

/-- Witness for C1 at a concrete store: accepting the pending 1→2
request creates both edges and marks the request accepted. -/
theorem accept_pending_materializes_friendship_witness :
    Friendship.mk 1 2 ∈ (acceptRequest 2 0 dbAccept).friendships ∧
    Friendship.mk 2 1 ∈ (acceptRequest 2 0 dbAccept).friendships ∧
    (∀ r ∈ (acceptRequest 2 0 dbAccept).friend_requests,
      r.id = 0 → r.status = .accepted) :=
  have h := accept_pending_materializes_friendship dbAccept pendingReq
    (by decide) (by decide) (by decide)
  ⟨h.2.2.1, h.2.2.2.1, h.1⟩

/-- **C2**: with B ≠ A resolvable and no existing request for the
ordered pair (A,B), the first send succeeds and leaves exactly one
`pending` row for (A,B); an immediately repeated send hits the
`UNIQUE(sender_id, receiver_id)` constraint (error 23505) and is
reported as a `DuplicateRequest`, inserting nothing. -/
theorem send_request_twice (db : DB) (a b : UserId) (email : String)
    (fid1 fid2 : ReqId)
    (hres : resolveEmail email db = some b) (hself : b ≠ a)
    (hnew : requestPairExists a b db = false) :
    ∃ db1, sendFriendRequest a email fid1 db = .ok db1 ∧
      db1.friend_requests.filter
          (fun r => r.sender_id = a ∧ r.receiver_id = b) =
        [⟨fid1, a, b, .pending⟩] ∧
      sendFriendRequest a email fid2 db1 = .error .DuplicateRequest := by
  have hnew' : ¬(requestPairExists a b db = true) := by rw [hnew]; simp
  refine ⟨{ db with friend_requests := db.friend_requests ++
    [⟨fid1, a, b, .pending⟩] }, ?_, ?_, ?_⟩
  · rw [sendFriendRequest, hres]
    simp only [if_neg hself, if_neg hnew']
  · rw [List.filter_append]
    have hleft : db.friend_requests.filter
        (fun r => r.sender_id = a ∧ r.receiver_id = b) = [] := by
      rw [List.filter_eq_nil_iff]
      intro r hr
      have := List.any_eq_false.1 hnew r hr
      simpa using this
    rw [hleft]
    simp
  · rw [sendFriendRequest]
    have hres1 : resolveEmail email
        { db with friend_requests := db.friend_requests ++
            [⟨fid1, a, b, .pending⟩] } = some b := hres
    rw [hres1]
    have hdup : requestPairExists a b
        { db with friend_requests := db.friend_requests ++
            [⟨fid1, a, b, .pending⟩] } = true := by
      unfold requestPairExists
      simp
    simp only [if_neg hself, hdup, if_pos]

/-- Witness for C2 at a concrete store: user 1 sends to bob@x.com
twice; one pending row, then `DuplicateRequest`. -/
theorem send_request_twice_witness :
    ∃ db1, sendFriendRequest 1 "bob@x.com" 10 dbSendTwice = .ok db1 ∧
      db1.friend_requests.filter
          (fun r => r.sender_id = 1 ∧ r.receiver_id = 2) =
        [⟨10, 1, 2, .pending⟩] ∧
      sendFriendRequest 1 "bob@x.com" 11 db1 = .error .DuplicateRequest :=
  send_request_twice dbSendTwice 1 2 "bob@x.com" 10 11
    (by decide) (by decide) (by decide)

/-- **C4 counterexample**: the claim says a later `accept` on a
rejected request fails with `InvalidState`; in the code `acceptRequest`
is an unconditional `update({status:'accepted'}).eq('id', id)`, so on
the store holding the rejected 1→2 request the accept by the receiver
succeeds, overwriting the status to `accepted` (while the trigger's
`OLD.status = 'pending'` guard still creates no edges). -/
theorem accept_after_reject_not_blocked :
    (acceptRequest 2 0 dbRejected).friend_requests =
      [⟨0, 1, 2, .accepted⟩] ∧
    (acceptRequest 2 0 dbRejected).friendships = [] := by decide

/-- **C4 (amended)**: `accept` performs an unconditional status write
filtered only by row-level security. (i) When no row with the given id
has the actor as receiver, the store is unchanged and no error is
reported (no `Forbidden`). (ii) When the receiver accepts a request
whose status is `rejected`, the status is overwritten to `accepted`
without error (no `InvalidState`), and no Friendship edges are created
because the trigger fires only on the pending→accepted transition. -/
theorem accept_unconditional_update (db : DB) (actor : UserId) (reqId : ReqId)
    (req : FriendRequest) :
    ((∀ r ∈ db.friend_requests, ¬(r.id = reqId ∧ r.receiver_id = actor)) →
      acceptRequest actor reqId db = db) ∧
    (req ∈ db.friend_requests → req.id = reqId → req.receiver_id = actor →
      req.status = .rejected →
      (db.friend_requests.map (fun r => r.id)).Nodup →
      (∀ r ∈ (acceptRequest actor reqId db).friend_requests,
          r.id = reqId → r.status = .accepted) ∧
      (acceptRequest actor reqId db).friendships = db.friendships) := by
  constructor
  · intro h
    unfold acceptRequest updateRequestStatus
    rw [applyRequestUpdate_skip _ _ _ _ _ h]
  · intro hmem hid hact hrej hnd
    subst hid; subst hact
    obtain ⟨l₁, l₂, hsplit, h₁, h₂⟩ := mem_nodup_decomp _ _ hmem hnd
    have hup := updateRequestStatus_decomp db req .accepted l₁ l₂ hsplit h₁ h₂
    have hcf : create_friendship req { req with status := .accepted }
        db.friendships = db.friendships := by
      unfold create_friendship
      rw [if_neg (by rw [hrej]; simp)]
    constructor
    · intro r hr hidr
      rw [acceptRequest, hup] at hr
      rcases List.mem_append.1 hr with hl | hl
      · exact absurd hidr (h₁ r hl)
      · rcases List.mem_cons.1 hl with rfl | hl
        · rfl
        · exact absurd hidr (h₂ r hl)
    · rw [acceptRequest, hup]
      simpa using hcf

/-- Witness for C4's amended theorem: on the store with the rejected
request, an accept by a stranger (user 3) changes nothing, and the
receiver's accept yields status `accepted` with no new edges. -/
theorem accept_unconditional_update_witness :
    acceptRequest 3 0 dbRejected = dbRejected ∧
    (∀ r ∈ (acceptRequest 2 0 dbRejected).friend_requests,
      r.id = 0 → r.status = .accepted) ∧
    (acceptRequest 2 0 dbRejected).friendships = dbRejected.friendships :=
  have h1 := (accept_unconditional_update dbRejected 3 0 rejectedReq).1 (by decide)
  have h2 := (accept_unconditional_update dbRejected 2 0 rejectedReq).2
    (by decide) rfl rfl rfl (by decide)
  ⟨h1, h2.1, h2.2⟩

/-! ## Helper lemmas: the message load path -/

theorem createdLe_trans (x y z : Message) :
    createdLe x y → createdLe y z → createdLe x z := by
  intro h1 h2
  simp only [createdLe, decide_eq_true_eq] at h1 h2 ⊢
  exact le_trans h1 h2

theorem createdLe_total (x y : Message) : createdLe x y || createdLe y x := by
  simp only [createdLe, Bool.or_eq_true, decide_eq_true_eq]
  exact le_total _ _

theorem markReadIn_nil (l : List Message) : markReadIn [] l = l := by
  unfold markReadIn
  simp

theorem loadMessages_eq (a b : UserId) (db : DB) :
    loadMessages a b db =
      (loadQuery a b db,
       { db with messages :=
          markReadIn (unreadIdsOf a (loadQuery a b db)) db.messages }) := by
  by_cases h : (unreadIdsOf a (loadQuery a b db)).length > 0
  · simp [loadMessages, h]
  · have hnil : unreadIdsOf a (loadQuery a b db) = [] := by
      cases hu : unreadIdsOf a (loadQuery a b db) with
      | nil => rfl
      | cons x xs => rw [hu] at h; simp at h
    simp [loadMessages, hnil, markReadIn_nil]

theorem mem_loadQuery (a b : UserId) (db : DB) (m : Message) :
    m ∈ loadQuery a b db ↔ m ∈ db.messages ∧ pairFilter a b m = true := by
  unfold loadQuery
  rw [List.mem_mergeSort, List.mem_filter]

theorem loadQuery_sorted (a b : UserId) (db : DB) :
    (loadQuery a b db).Pairwise (fun x y => x.created_at ≤ y.created_at) := by
  have h := @List.sorted_mergeSort Message createdLe createdLe_trans createdLe_total
    (db.messages.filter (pairFilter a b))
  exact h.imp (fun hc => by simpa [createdLe] using hc)

theorem mem_unreadIdsOf (a : UserId) (data : List Message) (i : MsgId) :
    i ∈ unreadIdsOf a data ↔
      ∃ m ∈ data, m.receiver_id = a ∧ m.read = false ∧ m.id = i := by
  unfold unreadIdsOf
  simp only [List.mem_map, List.mem_filter, decide_eq_true_eq]
  constructor
  · rintro ⟨m, ⟨hm, hra⟩, rfl⟩
    exact ⟨m, hm, hra.1, hra.2, rfl⟩
  · rintro ⟨m, hm, hrec, hrd, rfl⟩
    exact ⟨m, ⟨hm, hrec, hrd⟩, rfl⟩

theorem sameId_of_nodup (l : List Message)
    (hnd : (l.map (fun m => m.id)).Nodup) (x y : Message)
    (hx : x ∈ l) (hy : y ∈ l) (hid : x.id = y.id) : x = y :=
  List.inj_on_of_nodup_map hnd hx hy hid

/-- **C3**: `load(A,B)` returns exactly the messages of the unordered
pair {A,B}, sorted ascending by `created_at`; after the call every
returned message with receiver A is read in the store; and the batched
write only flips `read` to true on A's unread inbound rows, leaving
every other row untouched (rows are compared positionally through
`Forall₂`, so nothing is inserted or removed either). -/
theorem load_returns_pair_sorted_marks_read (db : DB) (a b : UserId)
    (hnd : (db.messages.map (fun m => m.id)).Nodup) :
    (∀ m, m ∈ (loadMessages a b db).1 ↔
      m ∈ db.messages ∧ pairFilter a b m = true) ∧
    (loadMessages a b db).1.Pairwise (fun x y => x.created_at ≤ y.created_at) ∧
    (∀ m ∈ (loadMessages a b db).1, m.receiver_id = a →
      ∀ m' ∈ (loadMessages a b db).2.messages, m'.id = m.id → m'.read = true) ∧
    List.Forall₂ (fun m m' => m' = m ∨
        (m.receiver_id = a ∧ m.read = false ∧ m' = { m with read := true }))
      db.messages (loadMessages a b db).2.messages := by
  rw [loadMessages_eq]
  set ids := unreadIdsOf a (loadQuery a b db) with hids
  refine ⟨fun m => mem_loadQuery a b db m, loadQuery_sorted a b db, ?_, ?_⟩
  · intro m hm hrec m' hm' hid
    unfold markReadIn at hm'
    obtain ⟨m₀, hm₀, rfl⟩ := List.mem_map.1 hm'
    have hid₀ : m₀.id = m.id := by
      by_cases hc : m₀.id ∈ ids <;> simpa [hc] using hid
    have hm₀m : m₀ = m :=
      sameId_of_nodup db.messages hnd m₀ m hm₀ ((mem_loadQuery a b db m).1 hm).1 hid₀
    subst hm₀m
    by_cases hr : m₀.read = true
    · by_cases hc : m₀.id ∈ ids <;> simp [hc, hr]
    · have hfalse : m₀.read = false := by
        cases hv : m₀.read
        · rfl
        · exact absurd hv hr
      have hin : m₀.id ∈ ids :=
        (mem_unreadIdsOf a (loadQuery a b db) m₀.id).2 ⟨m₀, hm, hrec, hfalse, rfl⟩
      simp [hin]
  · unfold markReadIn
    rw [List.forall₂_map_right_iff, List.forall₂_same]
    intro m hm
    by_cases hc : m.id ∈ ids
    · obtain ⟨m₂, hm₂, hrec₂, hrd₂, hid₂⟩ := (mem_unreadIdsOf a _ m.id).1 hc
      have hm₂m : m₂ = m :=
        sameId_of_nodup db.messages hnd m₂ m
          ((mem_loadQuery a b db m₂).1 hm₂).1 hm hid₂
      subst hm₂m
      right
      exact ⟨hrec₂, hrd₂, by simp [hc]⟩
    · left
      simp [hc]

/-- Witness for C3: loading the 1–2 conversation on the concrete store
returns the pair's messages in ascending order and the inbound unread
message ends up read. -/
theorem load_returns_pair_sorted_marks_read_witness :
    (loadMessages 1 2 dbLoad).1.Pairwise (fun x y => x.created_at ≤ y.created_at) ∧
    msgEarly ∈ (loadMessages 1 2 dbLoad).1 ∧
    (∀ m' ∈ (loadMessages 1 2 dbLoad).2.messages,
      m'.id = msgEarly.id → m'.read = true) :=
  have h := load_returns_pair_sorted_marks_read dbLoad 1 2 (by decide)
  have hmem : msgEarly ∈ (loadMessages 1 2 dbLoad).1 :=
    (h.1 msgEarly).2 ⟨by decide, by decide⟩
  ⟨h.2.1, hmem, h.2.2.1 msgEarly hmem rfl⟩

/-- **C5** (evaluating the code at the failing input): the subscription
handler's local update is the unconditional append
`setMessages(prev => [...prev, payload.new])`; it never checks whether
the arriving id is already present. Delivering `echoMsg` once and then
again (at-least-once redelivery, which the handler must tolerate)
leaves two entries with `echoMsg`'s id in the reconciled sequence,
where the claim demands exactly one. -/
theorem handler_append_duplicates_on_redelivery :
    ((handlerAppend (handlerAppend [] echoMsg) echoMsg).filter
      (fun m => m.id = echoMsg.id)).length = 2 := by decide

/-- **C6**: across the three core operations that touch the message
store — `loadMessages`' batched update, the subscription handler's
per-message update, and `sendMessage`'s insert — the `read` flag never
transitions true→false, and any row whose flag flips false→true has the
acting user as its receiver (the handler also checks
`payload.new.receiver_id === currentUserId`, and `loadMessages` only
collects ids of the current user's unread inbound rows). `sendMessage`
only appends a fresh row with the store default `read = false`. -/
theorem read_flag_monotone_receiver_only :
    (∀ (db : DB) (a b : UserId), (db.messages.map (fun m => m.id)).Nodup →
      List.Forall₂ (fun m m' => (m.read = true → m'.read = true) ∧
          (m.read = false → m'.read = true → m.receiver_id = a))
        db.messages (loadMessages a b db).2.messages) ∧
    (∀ (db : DB) (cur : UserId) (payload : Message),
      payload ∈ db.messages → (db.messages.map (fun m => m.id)).Nodup →
      List.Forall₂ (fun m m' => (m.read = true → m'.read = true) ∧
          (m.read = false → m'.read = true → m.receiver_id = cur))
        db.messages (handlerMarkRead cur payload db).messages) ∧
    (∀ (s r : UserId) (content : String) (fid : MsgId) (now : Time) (db : DB),
      (sendMessage s r content fid now db).1.messages = db.messages ∨
      (sendMessage s r content fid now db).1.messages =
        db.messages ++ [⟨fid, s, r, trim content, false, now⟩]) := by
  refine ⟨?_, ?_, ?_⟩
  · intro db a b hnd
    rw [loadMessages_eq]
    set ids := unreadIdsOf a (loadQuery a b db) with hids
    unfold markReadIn
    rw [List.forall₂_map_right_iff, List.forall₂_same]
    intro m hm
    by_cases hc : m.id ∈ ids
    · obtain ⟨m₂, hm₂, hrec₂, hrd₂, hid₂⟩ := (mem_unreadIdsOf a _ m.id).1 hc
      have hm₂m : m₂ = m :=
        sameId_of_nodup db.messages hnd m₂ m
          ((mem_loadQuery a b db m₂).1 hm₂).1 hm hid₂
      subst hm₂m
      constructor
      · intro h; simp [hc]
      · intro _ _; exact hrec₂
    · refine ⟨by simp [hc], fun h1 h2 => ?_⟩
      rw [if_neg hc] at h2
      rw [h1] at h2
      exact absurd h2 (by simp)
  · intro db cur payload hpay hnd
    unfold handlerMarkRead
    by_cases hrc : payload.receiver_id = cur
    · rw [if_pos hrc]
      rw [List.forall₂_map_right_iff, List.forall₂_same]
      intro m hm
      by_cases hc : m.id = payload.id
      · have hmp : m = payload := sameId_of_nodup db.messages hnd m payload hm hpay hc
        subst hmp
        constructor
        · intro h; simp [hc]
        · intro _ _; exact hrc
      · refine ⟨by simp [hc], fun h1 h2 => ?_⟩
        rw [if_neg hc] at h2
        rw [h1] at h2
        exact absurd h2 (by simp)
    · rw [if_neg hrc]
      rw [List.forall₂_same]
      intro m _
      exact ⟨fun h => h, fun h1 h2 => absurd h2 (by rw [h1]; simp)⟩
  · intro s r content fid now db
    unfold sendMessage
    by_cases h : trim content = ""
    · rw [if_pos h]; left; rfl
    · rw [if_neg h]; right; rfl

/-- Witness for C6: the three parts applied at a concrete store with
one unread message inbound to user 1. -/
theorem read_flag_monotone_receiver_only_witness :
    List.Forall₂ (fun m m' => (m.read = true → m'.read = true) ∧
        (m.read = false → m'.read = true → m.receiver_id = 1))
      dbReadFlag.messages (loadMessages 1 2 dbReadFlag).2.messages ∧
    List.Forall₂ (fun m m' => (m.read = true → m'.read = true) ∧
        (m.read = false → m'.read = true → m.receiver_id = 1))
      dbReadFlag.messages
      (handlerMarkRead 1 ⟨5, 2, 1, "hello", false, 1⟩ dbReadFlag).messages ∧
    ((sendMessage 2 1 "hey" 9 7 dbReadFlag).1.messages = dbReadFlag.messages ∨
      (sendMessage 2 1 "hey" 9 7 dbReadFlag).1.messages =
        dbReadFlag.messages ++ [⟨9, 2, 1, trim "hey", false, 7⟩]) :=
  ⟨read_flag_monotone_receiver_only.1 dbReadFlag 1 2 (by decide),
   read_flag_monotone_receiver_only.2.1 dbReadFlag 1 ⟨5, 2, 1, "hello", false, 1⟩
     (by decide) (by decide),
   read_flag_monotone_receiver_only.2.2 2 1 "hey" 9 7 dbReadFlag⟩

/-- **C7**: the live subscription's filter admits a freshly inserted
message exactly when its unordered {sender, receiver} pair equals
{userA, userB} — both directions of the pair are admitted and every
unrelated conversation is excluded. -/
theorem channel_filter_pair_iff (userA userB : UserId) (m : Message) :
    channelFilter userA userB m = true ↔
      ({m.sender_id, m.receiver_id} : Set UserId) = {userA, userB} := by
  rw [Set.pair_eq_pair_iff]
  constructor
  · intro h
    simp only [channelFilter, Bool.or_eq_true, decide_eq_true_eq] at h
    tauto
  · intro h
    simp only [channelFilter, Bool.or_eq_true, decide_eq_true_eq]
    tauto

/-- **C8**: `sendMessage` refuses content that is blank after trimming
— the guard `if (!newMessage.trim()) return;` — inserting no row and
yielding no id; for non-blank content it inserts exactly one row (the
trimmed content, `read = false`, fresh id) and that id is the result. -/
theorem send_message_blank_guard (s r : UserId) (content : String)
    (fid : MsgId) (now : Time) (db : DB) :
    (trim content = "" → sendMessage s r content fid now db = (db, none)) ∧
    (trim content ≠ "" →
      (sendMessage s r content fid now db).1.messages =
        db.messages ++ [⟨fid, s, r, trim content, false, now⟩] ∧
      (sendMessage s r content fid now db).2 = some fid) := by
  constructor
  · intro h
    unfold sendMessage
    rw [if_pos h]
  · intro h
    unfold sendMessage
    rw [if_neg h]
    exact ⟨rfl, rfl⟩

/-- Witness for C8: a whitespace-only message is refused with no
insert; " hi " is inserted as one row and its id returned. -/
theorem send_message_blank_guard_witness :
    sendMessage 1 2 "   " 9 5 dbEmptySend = (dbEmptySend, none) ∧
    (sendMessage 1 2 " hi " 9 5 dbEmptySend).1.messages =
      dbEmptySend.messages ++ [⟨9, 1, 2, trim " hi ", false, 5⟩] ∧
    (sendMessage 1 2 " hi " 9 5 dbEmptySend).2 = some 9 :=
  ⟨(send_message_blank_guard 1 2 "   " 9 5 dbEmptySend).1 (by decide),
   (send_message_blank_guard 1 2 " hi " 9 5 dbEmptySend).2 (by decide)⟩

/-- **C10**: a successful send stores `content.trim()`, not the raw
input: the single inserted row's content equals the trimmed content. -/
theorem send_message_stores_trimmed (s r : UserId) (content : String)
    (fid : MsgId) (now : Time) (db : DB) (h : trim content ≠ "") :
    ∃ row : Message, (sendMessage s r content fid now db).1.messages =
      db.messages ++ [row] ∧ row.content = trim content := by
  refine ⟨⟨fid, s, r, trim content, false, now⟩, ?_, rfl⟩
  unfold sendMessage
  rw [if_neg h]

/-- Witness for C10 on an input whose trim differs from the raw text:
the stored content is "hi", not "  hi  ". -/
theorem send_message_stores_trimmed_witness :
    trim "  hi  " ≠ "  hi  " ∧ trim "  hi  " = "hi" ∧
    ∃ row : Message, (sendMessage 1 2 "  hi  " 9 5 dbTrimSend).1.messages =
      dbTrimSend.messages ++ [row] ∧ row.content = trim "  hi  " :=
  ⟨by decide, by decide,
   send_message_stores_trimmed 1 2 "  hi  " 9 5 dbTrimSend (by decide)⟩

/-! ## Helper lemmas: the presence heartbeat -/

theorem presenceWrite_presenceWrite (uid : UserId) (st1 st2 : String)
    (t1 t2 : Time) (p : Profile) :
    presenceWrite uid st2 t2 (presenceWrite uid st1 t1 p) =
      presenceWrite uid st2 t2 p := by
  unfold presenceWrite
  by_cases h : p.id = uid
  · simp [h]
  · simp [h]

theorem map_presenceWrite_map (uid : UserId) (st1 st2 : String)
    (t1 t2 : Time) (l : List Profile) :
    (l.map (presenceWrite uid st1 t1)).map (presenceWrite uid st2 t2) =
      l.map (presenceWrite uid st2 t2) := by
  induction l with
  | nil => rfl
  | cons p ps ih => simp [ih, presenceWrite_presenceWrite]

theorem runBeats_append (uid : UserId) (l₁ l₂ : List Time) (db : DB) :
    runBeats uid (l₁ ++ l₂) db = runBeats uid l₂ (runBeats uid l₁ db) :=
  List.foldl_append _ _ _ _

theorem teardown_runBeats_profiles (uid : UserId) (ts : List Time) (t : Time)
    (db : DB) :
    (teardownStatus uid t (runBeats uid ts db)).profiles =
      db.profiles.map (presenceWrite uid "offline" t) := by
  induction ts generalizing db with
  | nil => rfl
  | cons t0 rest ih =>
    have hstep : runBeats uid (t0 :: rest) db =
        runBeats uid rest (updateStatus uid t0 db) := rfl
    rw [hstep, ih (updateStatus uid t0 db)]
    show (db.profiles.map (presenceWrite uid "online" t0)).map
        (presenceWrite uid "offline" t) = _
    exact map_presenceWrite_map uid "online" "offline" t0 t db.profiles

theorem runBeats_heartbeat_profiles (uid : UserId) (k : Nat) (db : DB) :
    (runBeats uid (heartbeatTicks (30 * k)) db).profiles =
      db.profiles.map (presenceWrite uid "online" (30 * k)) := by
  have hdiv : ∀ n : Nat, 30 * n / 30 = n := fun n =>
    Nat.mul_div_cancel_left n (by norm_num)
  induction k with
  | zero =>
    show (runBeats uid (heartbeatTicks 0) db).profiles = _
    have : heartbeatTicks 0 = [0] := by decide
    rw [this]
    rfl
  | succ k ih =>
    have hticks : heartbeatTicks (30 * (k + 1)) =
        heartbeatTicks (30 * k) ++ [30 * (k + 1)] := by
      unfold heartbeatTicks
      rw [hdiv, hdiv, List.range_succ]
      simp
    rw [hticks, runBeats_append]
    show ((runBeats uid (heartbeatTicks (30 * k)) db).profiles.map
        (presenceWrite uid "online" (30 * (k + 1)))) = _
    rw [ih]
    exact map_presenceWrite_map uid "online" "online" (30 * k) (30 * (k + 1))
      db.profiles

/-- **C9**: a live session for account `uid` writes presence at times
0, 30, 60, … (consecutive heartbeat instants are exactly 30 time-units
apart, starting immediately); right after the heartbeat at time 30·k
the session's own profile row reads status "online" with
`last_seen = 30·k`; teardown performs one final write leaving the own
row at status "offline" with `last_seen` the teardown time; and every
profile row of a different account is never touched by the session. -/
theorem presence_session_every30_then_offline (uid : UserId) (t : Time)
    (db : DB) :
    List.Chain' (fun x y => y = x + 30) (heartbeatTicks t) ∧
    0 ∈ heartbeatTicks t ∧
    (∀ k : Nat, (runBeats uid (heartbeatTicks (30 * k)) db).profiles =
      db.profiles.map (presenceWrite uid "online" (30 * k))) ∧
    (sessionRun uid t db).profiles =
      db.profiles.map (presenceWrite uid "offline" t) ∧
    (∀ p ∈ db.profiles, p.id ≠ uid → p ∈ (sessionRun uid t db).profiles) := by
  have hoff : (sessionRun uid t db).profiles =
      db.profiles.map (presenceWrite uid "offline" t) :=
    teardown_runBeats_profiles uid (heartbeatTicks t) t db
  refine ⟨?_, ?_, fun k => runBeats_heartbeat_profiles uid k db, hoff, ?_⟩
  · unfold heartbeatTicks
    rw [List.chain'_map, List.chain'_range_succ]
    intro m _
    exact Nat.mul_succ 30 m
  · unfold heartbeatTicks
    exact List.mem_map.2 ⟨0, List.mem_range.2 (Nat.succ_pos _), Nat.mul_zero 30⟩
  · intro p hp hne
    rw [hoff]
    refine List.mem_map.2 ⟨p, hp, ?_⟩
    unfold presenceWrite
    rw [if_neg hne]

/-- Witness for C9: running a session for user 1 on the two-profile
store and tearing down at time 65 leaves user 2's row untouched and
user 1's row offline with `last_seen = 65`. -/
theorem presence_session_every30_then_offline_witness :
    Profile.mk 2 "bob@x.com" "offline" 0 ∈ (sessionRun 1 65 dbPresence).profiles ∧
    (sessionRun 1 65 dbPresence).profiles =
      dbPresence.profiles.map (presenceWrite 1 "offline" 65) :=
  have h := presence_session_every30_then_offline 1 65 dbPresence
  ⟨h.2.2.2.2 (Profile.mk 2 "bob@x.com" "offline" 0) (by decide) (by decide),
   h.2.2.2.1⟩

end RealtimePals
